import Mathlib

/-!
Verification development for the `polarization_interface` backend
(`src/backend`).  The Python source is shallowly embedded: each relevant
function becomes a Lean definition over explicit state, nondeterministic
effects of the environment (Redis replies, worker outcomes, wall-clock time,
file-system failures) become explicit parameters, and Python numerics are
modelled by exact arithmetic (`ℤ`, `ℚ`, `ℝ`).
-/

namespace Polarization

/-! ### Decoded stream values

`RedisCountsClient.decode_dict` JSON-decodes every field of a stream entry,
so a field's value can be any JSON value.  We model the cases the backend
manipulates: integers, strings, booleans, null and nested objects (JSON
arrays and floats behave like strings/ints respectively for the comparisons
the code performs and are not needed by any claim).
-/

inductive Val where
  | vint (n : ℤ)
  | vstr (s : String)
  | vbool (b : Bool)
  | vnull
  | vobj (fields : List (String × Val))
deriving Repr

/-- Python `d.get(key, default)` on a decoded dictionary (modelled as an
association list with the dictionary's unique keys). -/
def dictGet (d : List (String × Val)) (key : String) (dflt : Val) : Val :=
  match d.lookup key with
  | some v => v
  | none => dflt

/-- Python `key in d`. -/
def dictHas (d : List (String × Val)) (key : String) : Bool :=
  (d.lookup key).isSome

/-- Python `v == 0` for a decoded value: `0`, `0.0` and `False` compare equal
to `0`; strings (even the empty string), `None`, lists and dicts do not. -/
def pyEqZero : Val → Bool
  | .vint n => n == 0
  | .vbool b => !b
  | _ => false

/-- Python truthiness `bool(v) = False`: zero numbers, empty strings, `False`,
`None` and empty containers are falsy. -/
def pyFalsy : Val → Bool
  | .vint n => n == 0
  | .vstr s => s.isEmpty
  | .vbool b => !b
  | .vnull => true
  | .vobj f => f.isEmpty

/-- Python `int(v)`: identity on ints, `False/True ↦ 0/1`, numeric strings
parse, everything else raises (modelled as `none`). -/
def pyInt : Val → Option ℤ
  | .vint n => some n
  | .vbool b => some (if b then 1 else 0)
  | .vstr s => s.toInt?
  | _ => none

/-! ### Python rounding

`round(x, 1)` in Python rounds to the nearest multiple of `1/10`, ties to
the even digit (banker's rounding).  We model the arithmetic exactly over
`ℝ` (the efficiencies involve `sqrt`): `pyRoundR x` is Python `round(x)` and
`round1R x` is Python `round(x, 1)` under exact real arithmetic. -/

noncomputable def pyRoundR (x : ℝ) : ℤ :=
  let f := ⌊x⌋
  if x - f < 1 / 2 then f
  else if x - f > 1 / 2 then f + 1
  else if Even f then f else f + 1

noncomputable def round1R (x : ℝ) : ℝ := (pyRoundR (10 * x) : ℝ) / 10

/-! ### `redis_client.py` — `RedisCountsClient`

The client's mutable attributes become a state record.  Stream ids
(`'1700000000000-0'` style strings, totally ordered by Redis) are modelled
as `ℕ`; the `'$'` sentinel gets its own constructor; the initial
`LAST_TIMESTAMP = '0-0'` is the least stream id, `Cursor.pos 0`.
Wall-clock instants (`datetime.now()`) are modelled as `ℚ` seconds so that
`(now - then).total_seconds()` is exact subtraction. -/

inductive Cursor where
  /-- a concrete stream id -/
  | pos (t : ℕ)
  /-- the `'$'` (latest) sentinel -/
  | latest
deriving DecidableEq, Repr

structure RedisCountsClient where
  last_timestamp : Cursor
  connection_attempts : ℕ
  last_successful_read : Option ℚ
  total_reads : ℕ
  failed_reads : ℕ
  filtered_reads : ℕ
  consecutive_failures : ℕ
  max_consecutive_failures : ℕ
  last_reset_time : Option ℚ
  started : Bool
deriving DecidableEq, Repr

/-- `RedisCountsClient.__init__` (the `_started` flag is written `started`;
a leading underscore would read as a hole in Lean). -/
def RedisCountsClient.init : RedisCountsClient where
  last_timestamp := .pos 0
  connection_attempts := 0
  last_successful_read := none
  total_reads := 0
  failed_reads := 0
  filtered_reads := 0
  consecutive_failures := 0
  max_consecutive_failures := 5
  last_reset_time := none
  started := false

/-- What the environment (Redis + asyncio) does during one
`get_counts_data` call. -/
inductive ReadEvent where
  /-- `xread` returned no messages: no new data -/
  | noMessages
  /-- the overall `asyncio.wait_for` timeout fired -/
  | timeout
  /-- `decode_stream_data` produced no messages -/
  | decodeFail
  /-- one decoded entry: its stream id and decoded field dictionary
      (`count=1`, so a single entry is returned) -/
  | entry (t : ℕ) (data : List (String × Val))
  /-- some other exception was raised during the read -/
  | exn

/-- Outcome of `get_counts_data`: new data, `None`, or a raised
`RedisClientError`. -/
inductive ReadResult where
  | data (d : List (String × Val))
  | nodata
  | error

/-- `reset_stream_position` -/
def resetStreamPosition (s : RedisCountsClient) (new_position : Cursor) :
    RedisCountsClient :=
  { s with last_timestamp := new_position }

/-- `_check_recovery_needed`: after `max_consecutive_failures` consecutive
failures, and only if no reset ever happened or more than 300 seconds have
passed since the last one, force the cursor to `'$'` and clear the
counter. -/
def checkRecoveryNeeded (s : RedisCountsClient) (now : ℚ) : RedisCountsClient :=
  if s.max_consecutive_failures ≤ s.consecutive_failures then
    match s.last_reset_time with
    | none =>
        { resetStreamPosition s .latest with
          last_reset_time := some now, consecutive_failures := 0 }
    | some t =>
        if 300 < now - t then
          { resetStreamPosition s .latest with
            last_reset_time := some now, consecutive_failures := 0 }
        else s
  else s

/-- `get_counts_data`.  The not-started guard raises before any counter is
touched; `connection_attempts` is bumped by `_get_fresh_connection` on every
path that enters the `try` block; an entry is returned (and the cursor,
success time and failure counter updated) only when its id differs from the
current cursor; `asyncio.TimeoutError` is swallowed as "no data"; any other
exception bumps the failure counters, runs the recovery check and re-raises
as `RedisClientError`. -/
def getCountsData (s : RedisCountsClient) (ev : ReadEvent) (now : ℚ) :
    RedisCountsClient × ReadResult :=
  if !s.started then (s, .error)
  else
    let s := { s with total_reads := s.total_reads + 1,
                      connection_attempts := s.connection_attempts + 1 }
    match ev with
    | .noMessages => (s, .nodata)
    | .timeout => (s, .nodata)
    | .decodeFail => ({ s with failed_reads := s.failed_reads + 1 }, .nodata)
    | .entry t d =>
        if Cursor.pos t ≠ s.last_timestamp then
          ({ s with last_timestamp := .pos t,
                    last_successful_read := some now,
                    consecutive_failures := 0 }, .data d)
        else (s, .nodata)
    | .exn =>
        let s := { s with failed_reads := s.failed_reads + 1,
                          consecutive_failures := s.consecutive_failures + 1 }
        (checkRecoveryNeeded s now, .error)

/-! ### `get_formatted_counts` -/

/-- The published 6-field snapshot. -/
structure FormattedCounts where
  alice_singles : ℤ
  alice_efficiency : ℝ
  bob_singles : ℤ
  bob_efficiency : ℝ
  coincidences : ℤ
  joint_efficiency : ℝ

/-- The efficiency derivation of `get_formatted_counts` (exact STCounts
logic), as a pure function of the three extracted counters. -/
noncomputable def efficiencies (alice_singles bob_singles coincidences : ℤ) :
    ℝ × ℝ × ℝ :=
  let alice_eff : ℝ :=
    if 0 < bob_singles then round1R (100 * coincidences / bob_singles) else 0
  let bob_eff : ℝ :=
    if 0 < alice_singles then round1R (100 * coincidences / alice_singles) else 0
  let joint_eff : ℝ :=
    if 0 < alice_singles ∧ 0 < bob_singles then
      round1R (100 * coincidences / Real.sqrt (alice_singles * bob_singles))
    else 0
  (alice_eff, bob_eff, joint_eff)

/-- Outcome of `get_formatted_counts`: a snapshot, `None`, or a raised
`RedisClientError`. -/
inductive FormatResult where
  | ok (snapshot : Option FormattedCounts)
  | error

/-- `get_formatted_counts(prefix)` (the argument is written `pfx`: `prefix`
is a reserved word in Lean).  An empty decoded dictionary is falsy and
returns `None`; an entry whose `isTrim` field compares `== 0` (missing
fields default to `0`) is counted in `filtered_reads` and dropped; a missing
prefix returns `None`; `int()` failing on a counter field, or `.get` on a
non-dictionary prefix value, raises and is re-raised as `RedisClientError`. -/
noncomputable def getFormattedCounts (s : RedisCountsClient) (ev : ReadEvent)
    (now : ℚ) (pfx : String) : RedisCountsClient × FormatResult :=
  match getCountsData s ev now with
  | (s₁, .error) => (s₁, .error)
  | (s₁, .nodata) => (s₁, .ok none)
  | (s₁, .data counts_data) =>
      if counts_data.isEmpty then (s₁, .ok none)
      else
        let is_trim := dictGet counts_data "isTrim" (.vint 0)
        if pyEqZero is_trim then
          ({ s₁ with filtered_reads := s₁.filtered_reads + 1 }, .ok none)
        else
          match counts_data.lookup pfx with
          | none => (s₁, .ok none)
          | some prefix_data =>
              match prefix_data with
              | .vobj pd =>
                  match pyInt (dictGet pd "As" (.vint 0)),
                        pyInt (dictGet pd "Bs" (.vint 0)),
                        pyInt (dictGet pd "C" (.vint 0)) with
                  | some alice_singles, some bob_singles, some coincidences =>
                      let e := efficiencies alice_singles bob_singles coincidences
                      (s₁, .ok (some
                        { alice_singles := alice_singles
                          alice_efficiency := e.1
                          bob_singles := bob_singles
                          bob_efficiency := e.2.1
                          coincidences := coincidences
                          joint_efficiency := e.2.2 }))
                  | _, _, _ => (s₁, .error)
              | _ => (s₁, .error)

/-! ### `command_history.py` — `CommandHistoryManager`

The deque (`appendleft`, `maxlen = 200`) becomes a most-recent-first list
truncated to `max_history`; the on-disk JSONL file becomes an explicit list
so that a failing file append (`_append_to_file` catches every exception and
only logs it) is visibly swallowed.  With the file write modelled this way,
the body of `add_command` has no remaining failure point, so its own
`except ... raise` clause is dead code and `addCommand` is total. -/

structure HistoryEntry where
  id : String
  timestamp : ℚ
  command : String
  response : String
  isError : Bool
deriving DecidableEq, Repr

structure CommandHistoryManager where
  command_history : List HistoryEntry
  max_history : ℕ
  history_file : List HistoryEntry
deriving DecidableEq, Repr

/-- `_append_to_file`: when the file system fails (`fileIOFails`) the
exception is caught, logged and dropped — the entry is simply not
persisted. -/
def appendToFile (h : CommandHistoryManager) (entry : HistoryEntry)
    (fileIOFails : Bool) : CommandHistoryManager :=
  if fileIOFails then h
  else { h with history_file := h.history_file ++ [entry] }

/-- `add_command` -/
def addCommand (h : CommandHistoryManager) (command response : String)
    (is_error : Bool) (now : ℚ) (fileIOFails : Bool) :
    CommandHistoryManager × HistoryEntry :=
  let entry : HistoryEntry :=
    { id := toString (1000 * now).floor, timestamp := now,
      command := command, response := response, isError := is_error }
  let h₁ := { h with
    command_history := (entry :: h.command_history).take h.max_history }
  (appendToFile h₁ entry fileIOFails, entry)

/-! ### `zmq_worker.py` — `execute_zmq_command` -/

/-- The worker's result dictionary.  Method return values are modelled by
their string form (the orchestrator only ever uses `str(result)`). -/
structure ZmqResult where
  success : Bool
  result : Option String
  error : Option String
  error_type : Option String
deriving DecidableEq, Repr

/-- The two `except` clauses of `execute_zmq_command`, in source order:
an `AttributeError` (from `getattr` or from inside the call) becomes the
distinguished method-not-found result, any other exception becomes a
generic `{success: False, error, error_type}` result. -/
def workerExcept (command_name ty msg : String) : ZmqResult :=
  if ty == "AttributeError" then
    { success := false, result := none,
      error := some ("Method " ++ command_name ++
        " not found on ZMQ client: " ++ msg),
      error_type := some "AttributeError" }
  else
    { success := false, result := none, error := some msg,
      error_type := some ty }

/-- What the environment does during one `execute_zmq_command` call.
`getattr(client, command_name)` resolves the methods defined on
`PolarizationZMQClient`, but also the instance attribute `client` set in
`__init__`, `__init__` itself and every attribute inherited from `object`;
which case applies for a given name is part of the environment here.  A
name `getattr` cannot resolve raises `AttributeError` (`attrMissing`); a
resolvable but non-callable attribute (such as `client`) raises `TypeError`
when invoked (`nonCallable`). -/
inductive WorkerEnv where
  /-- constructing the fresh `PolarizationZMQClient` raised an exception of
      type `ty` with message `msg` (e.g. `ZMQClientError` on connect) -/
  | ctorRaises (ty msg : String)
  /-- `getattr` found no attribute named `command_name` and raised
      `AttributeError` with message `msg` — the unknown-command-name case -/
  | attrMissing (msg : String)
  /-- the name resolved to a non-callable attribute; invoking it raised
      `TypeError` with message `msg` (e.g. `command_name = "client"`) -/
  | nonCallable (msg : String)
  /-- the resolved method raised an exception of type `ty`, message `msg` -/
  | callRaises (ty msg : String)
  /-- the resolved method returned a value, modelled by its string form -/
  | callOk (result : String)
deriving DecidableEq, Repr

/-- `execute_zmq_command(command_name, ...)`: construct a fresh client,
resolve the attribute by name, call it; every exception is converted into a
result dictionary, never propagated.  The `AttributeError` from a failed
`getattr` lands in the first `except` clause (the method-not-found result);
the `TypeError` from invoking a resolvable non-callable attribute lands in
the generic clause. -/
def executeZmqCommand (command_name : String) (env : WorkerEnv) : ZmqResult :=
  match env with
  | .ctorRaises ty msg => workerExcept command_name ty msg
  | .attrMissing msg => workerExcept command_name "AttributeError" msg
  | .nonCallable msg => workerExcept command_name "TypeError" msg
  | .callRaises ty msg => workerExcept command_name ty msg
  | .callOk result =>
      { success := true, result := some result, error := none,
        error_type := none }

/-! ### `main.py` — operation registry and orchestrator

`operation_status` is a Python dict from operation id to a status record;
we model it as an association list in insertion order (dict order), with the
uniqueness of keys carried as a hypothesis where needed.  All registry
access in the source is serialized by `operation_lock`, and each background
task runs its steps in program order, so one `execute_zmq_operation` call is
one sequential function of its environment. -/

structure Operation where
  operation_id : String
  status : String
  command : String
  result : Option String
  error : Option String
  started_at : ℚ
  completed_at : Option ℚ
deriving DecidableEq, Repr

abbrev Registry := List (String × Operation)

/-- `create_operation`: insert a fresh pending record (a new dict key is
appended in insertion order). -/
def createOperation (reg : Registry) (operation_id command : String)
    (now : ℚ) : Registry :=
  reg ++ [(operation_id,
    { operation_id := operation_id, status := "pending", command := command,
      result := none, error := none, started_at := now,
      completed_at := none })]

/-- The field writes of `update_operation_status` on the targeted record:
write `status`, overwrite `result`/`error` only when given, stamp
`completed_at` on a terminal status. -/
def applyStatusUpdate (status : String) (result error : Option String)
    (now : ℚ) (op : Operation) : Operation :=
  { op with
    status := status
    result := if result.isSome then result else op.result
    error := if error.isSome then error else op.error
    completed_at :=
      if status = "completed" ∨ status = "error" then some now
      else op.completed_at }

/-- `update_operation_status`; unknown ids are ignored (logged only). -/
def updateOperationStatus (reg : Registry) (operation_id status : String)
    (result error : Option String) (now : ℚ) : Registry :=
  if (reg.lookup operation_id).isSome then
    reg.map fun p =>
      if p.1 = operation_id then
        (p.1, applyStatusUpdate status result error now p.2)
      else p
  else reg

/-- An operation counted by the cleanup pass: terminal status and a
non-null `completed_at`. -/
def isTerminal (op : Operation) : Bool :=
  (op.status == "completed" || op.status == "error") && op.completed_at.isSome

/-- The body of the `completed_ops` collection loop of
`cleanup_old_operations`: a terminal entry contributes its
`(completed_at, op_id)` pair. -/
def terminalKey (p : String × Operation) : Option (ℚ × String) :=
  match p.2.completed_at with
  | some t => if (p.2.status == "completed" || p.2.status == "error")
              then some (t, p.1) else none
  | none => none

/-- The `completed_ops` list built by `cleanup_old_operations`:
`(completed_at, op_id)` pairs of the terminal entries, in registry order. -/
def terminalPairs (reg : Registry) : List (ℚ × String) :=
  reg.filterMap terminalKey

/-- Python tuple comparison `(completed_at, op_id) <= (completed_at, op_id)`
(ISO timestamps compare chronologically, modelled by `ℚ`). -/
def keyLE (a b : ℚ × String) : Bool := a.1 < b.1 || (a.1 == b.1 && a.2 ≤ b.2)

/-- `cleanup_old_operations`: a no-op at up to 50 entries; otherwise, when
more than 25 terminal entries exist, sort them by `(completed_at, op_id)`
descending, keep the 25 most recent and delete the rest from the registry.
The source's locals are inlined: `completed_ops` is `terminalPairs reg`,
`completed_ops.sort(reverse=True)` is the descending merge sort, and
`ops_to_remove` is everything after the first 25 of it. -/
def cleanupOldOperations (reg : Registry) : Registry :=
  if reg.length ≤ 50 then reg
  else if 25 < (terminalPairs reg).length then
    reg.filter fun p =>
      !((((terminalPairs reg).mergeSort fun a b => keyLE b a).drop 25).any
        fun q => q.2 == p.1)
  else reg

/-- A registry of 51 distinct completed operations (a concrete fixture for
exercising the garbage-collection policy). -/
def sampleOp (i : ℕ) : Operation :=
  { operation_id := toString i, status := "completed", command := "cmd",
    result := some "ok", error := none, started_at := (i : ℚ),
    completed_at := some (i : ℚ) }

def sampleRegistry : Registry :=
  (List.range 51).map fun i => (toString i, sampleOp i)

/-- What the environment does while `execute_zmq_operation` awaits the
worker pool. -/
inductive ExecEnv where
  /-- `run_in_executor` returned the worker's result dictionary -/
  | result (r : ZmqResult)
  /-- a `ZMQClientError` escaped the await (message `msg = str(e)`) -/
  | raisesZmq (msg : String)
  /-- some other unexpected exception escaped (message `msg = str(e)`);
      its full traceback goes to the log only -/
  | raisesOther (msg : String)
deriving DecidableEq, Repr

structure BackendState where
  operation_status : Registry
  history : CommandHistoryManager
deriving DecidableEq, Repr

/-- `execute_zmq_operation`, as a function of its environment.  Returns the
new backend state together with the list of `status` values this call passed
to `update_operation_status` for `operation_id` (the observable the
lifecycle claims are about).  A subprocess result with `success` false
raises `ZMQClientError`, caught by the first handler; the generic handler
catches everything else; both mark the operation terminal and append to the
history; the `finally` block runs the registry cleanup. -/
def executeZmqOperation (st : BackendState) (operation_id : String)
    (env : ExecEnv) (fileIOFails : Bool) (now : ℚ) :
    BackendState × List String :=
  match st.operation_status.lookup operation_id with
  | none => (st, [])
  | some operation_info =>
    let reg₁ := updateOperationStatus st.operation_status operation_id
      "running" none none now
    match env with
    | .result r =>
        if r.success then
          let result := r.result.getD "None"
          let reg₂ := updateOperationStatus reg₁ operation_id "completed"
            (some result) none now
          let h := (addCommand st.history operation_info.command result
            false now fileIOFails).1
          (⟨cleanupOldOperations reg₂, h⟩, ["running", "completed"])
        else
          let e := "ZMQ subprocess " ++ r.error_type.getD "UnknownError" ++
            ": " ++ r.error.getD "Unknown subprocess error"
          let error_msg := "ZMQ Error: " ++ e
          let reg₂ := updateOperationStatus reg₁ operation_id "error"
            none (some error_msg) now
          let h := (addCommand st.history operation_info.command error_msg
            true now fileIOFails).1
          (⟨cleanupOldOperations reg₂, h⟩, ["running", "error"])
    | .raisesZmq msg =>
        let error_msg := "ZMQ Error: " ++ msg
        let reg₂ := updateOperationStatus reg₁ operation_id "error"
          none (some error_msg) now
        let h := (addCommand st.history operation_info.command error_msg
          true now fileIOFails).1
        (⟨cleanupOldOperations reg₂, h⟩, ["running", "error"])
    | .raisesOther msg =>
        let error_msg := "Unexpected error: " ++ msg
        let reg₂ := updateOperationStatus reg₁ operation_id "error"
          none (some error_msg) now
        let h := (addCommand st.history operation_info.command error_msg
          true now fileIOFails).1
        (⟨cleanupOldOperations reg₂, h⟩, ["running", "error"])

/-- The full status history of one dispatched operation: `"pending"`
written at creation, followed by every status `execute_zmq_operation`
writes for it. -/
def statusTrace (st : BackendState) (operation_id command : String)
    (env : ExecEnv) (fileIOFails : Bool) (now₀ now : ℚ) : List String :=
  "pending" ::
    (executeZmqOperation
      { st with operation_status :=
          createOperation st.operation_status operation_id command now₀ }
      operation_id env fileIOFails now).2

/-! ### Iterated reads (for the cursor-monotonicity claims) -/

/-- Strict order between cursor values: the stream's own ordering on
concrete ids; the `'$'` sentinel is not comparable. -/
def cursorLt : Cursor → Cursor → Prop
  | .pos a, .pos b => a < b
  | _, _ => False

/-- State after a sequence of `get_counts_data` calls, one per
`(event, wall-clock time)` pair. -/
def runReads (s : RedisCountsClient) : List (ReadEvent × ℚ) → RedisCountsClient
  | [] => s
  | (ev, now) :: rest => runReads (getCountsData s ev now).1 rest

/-- The cursor value before each read and after the last one. -/
def cursorTrace (s : RedisCountsClient) :
    List (ReadEvent × ℚ) → List Cursor
  | [] => [s.last_timestamp]
  | (ev, now) :: rest =>
      s.last_timestamp :: cursorTrace (getCountsData s ev now).1 rest

/-- Every read of the run receives one entry whose stream id is strictly
after the cursor queried at that point (the stream contract of `xread`). -/
def StrictlyNewEntries :
    RedisCountsClient → List (ReadEvent × ℚ) → Prop
  | _, [] => True
  | s, (ev, now) :: rest =>
      (∃ t d, ev = .entry t d ∧
        ∀ u, s.last_timestamp = .pos u → u < t) ∧
      StrictlyNewEntries (getCountsData s ev now).1 rest

/-! ## Helper lemmas -/

theorem lookup_append_single {β : Type} (reg : List (String × β))
    (key : String) (v : β) (h : reg.lookup key = none) :
    (reg ++ [(key, v)]).lookup key = some v := by
  induction reg with
  | nil => simp [List.lookup]
  | cons p rest ih =>
      rcases p with ⟨k, w⟩
      rw [List.cons_append]
      rw [List.lookup] at h ⊢
      cases hkey : key == k with
      | true => rw [hkey] at h; exact Option.noConfusion h
      | false => rw [hkey] at h; exact ih h

theorem lookup_map_keyed {β : Type} (reg : List (String × β))
    (key : String) (g : β → β) :
    (reg.map fun p => if p.1 = key then (p.1, g p.2) else p).lookup key
      = (reg.lookup key).map g := by
  induction reg with
  | nil => simp
  | cons p rest ih =>
      rcases p with ⟨k, w⟩
      rw [List.map_cons]
      by_cases hkey : k = key
      · subst hkey
        rw [if_pos rfl]
        rw [List.lookup, List.lookup]
        simp
      · rw [if_neg hkey]
        rw [List.lookup, List.lookup]
        have h1 : (key == k) = false :=
          beq_eq_false_iff_ne.mpr fun hh => hkey hh.symm
        rw [h1]
        exact ih

theorem length_updateOperationStatus (reg : Registry)
    (operation_id status : String) (result error : Option String) (now : ℚ) :
    (updateOperationStatus reg operation_id status result error now).length
      = reg.length := by
  unfold updateOperationStatus
  split
  · exact List.length_map _ _
  · rfl

theorem cleanup_noop_of_le (reg : Registry) (h : reg.length ≤ 50) :
    cleanupOldOperations reg = reg := by
  unfold cleanupOldOperations
  rw [if_pos h]

theorem lookup_updateOperationStatus (reg : Registry)
    (operation_id status : String) (result error : Option String) (now : ℚ)
    (op : Operation) (h : reg.lookup operation_id = some op) :
    (updateOperationStatus reg operation_id status result error now).lookup
      operation_id = some (applyStatusUpdate status result error now op) := by
  unfold updateOperationStatus
  rw [h]
  simp only [Option.isSome_some, if_true]
  rw [lookup_map_keyed reg operation_id, h]
  rfl

/-- The status-write trace of one `execute_zmq_operation` call on a
registered operation: `running` followed by exactly one terminal status. -/
theorem executeZmqOperation_trace (st : BackendState) (operation_id : String)
    (env : ExecEnv) (fileIOFails : Bool) (now : ℚ) (op : Operation)
    (h : st.operation_status.lookup operation_id = some op) :
    (executeZmqOperation st operation_id env fileIOFails now).2 =
      ["running", "completed"] ∨
    (executeZmqOperation st operation_id env fileIOFails now).2 =
      ["running", "error"] := by
  unfold executeZmqOperation
  rw [h]
  cases env with
  | result r => cases hr : r.success <;> simp [hr]
  | raisesZmq msg => simp
  | raisesOther msg => simp

theorem checkRecoveryNeeded_started (s : RedisCountsClient) (now : ℚ) :
    (checkRecoveryNeeded s now).started = s.started := by
  unfold checkRecoveryNeeded resetStreamPosition
  split
  · split
    · rfl
    · split <;> rfl
  · rfl

theorem getCountsData_started (s : RedisCountsClient) (ev : ReadEvent)
    (now : ℚ) : (getCountsData s ev now).1.started = s.started := by
  cases hs : s.started with
  | false => simp [getCountsData, hs]
  | true =>
      cases ev with
      | noMessages => simp [getCountsData, hs]
      | timeout => simp [getCountsData, hs]
      | decodeFail => simp [getCountsData, hs]
      | exn => simp [getCountsData, hs, checkRecoveryNeeded_started]
      | entry t d =>
          by_cases hc : Cursor.pos t = s.last_timestamp <;>
            simp [getCountsData, hs, hc]

/-- The successful new-data branch of `get_counts_data`, in closed form. -/
theorem getCountsData_entry_new (s : RedisCountsClient) (t : ℕ)
    (d : List (String × Val)) (now : ℚ) (hst : s.started = true)
    (hne : Cursor.pos t ≠ s.last_timestamp) :
    getCountsData s (.entry t d) now =
      ({ s with total_reads := s.total_reads + 1,
                connection_attempts := s.connection_attempts + 1,
                last_timestamp := .pos t,
                last_successful_read := some now,
                consecutive_failures := 0 }, .data d) := by
  simp [getCountsData, hst, hne]

theorem cursorTrace_head (s : RedisCountsClient)
    (evs : List (ReadEvent × ℚ)) :
    (cursorTrace s evs).head? = some s.last_timestamp := by
  cases evs with
  | nil => rfl
  | cons p rest => rcases p with ⟨ev, now⟩; rfl

/-- Under the stream contract (each returned entry is strictly after the
queried cursor), a run of successful reads produces a strictly increasing
cursor trace. -/
theorem chain'_cursorTrace (evs : List (ReadEvent × ℚ)) :
    ∀ s : RedisCountsClient, s.started = true →
      (∃ u, s.last_timestamp = Cursor.pos u) →
      StrictlyNewEntries s evs →
      List.Chain' cursorLt (cursorTrace s evs) := by
  induction evs with
  | nil => intro s _ _ _; exact List.chain'_singleton _
  | cons p rest ih =>
      rcases p with ⟨ev, now⟩
      rintro s hst ⟨u, hu⟩ ⟨⟨t, d, hev, hlt⟩, hrest⟩
      subst hev
      have hne : Cursor.pos t ≠ s.last_timestamp := by
        rw [hu]
        intro hcontra
        injection hcontra with h
        have := hlt u hu
        omega
      have hstep := getCountsData_entry_new s t d now hst hne
      show List.Chain' cursorLt
        (s.last_timestamp ::
          cursorTrace (getCountsData s (.entry t d) now).1 rest)
      rw [List.chain'_cons']
      constructor
      · intro b hb
        rw [cursorTrace_head] at hb
        have hb' : b = (getCountsData s (.entry t d) now).1.last_timestamp := by
          simpa using hb.symm
        subst hb'
        rw [hstep, hu]
        exact hlt u hu
      · apply ih
        · rw [getCountsData_started]; exact hst
        · exact ⟨t, by rw [hstep]⟩
        · exact hrest

theorem pyRoundR_intCast (n : ℤ) : pyRoundR (n : ℝ) = n := by
  unfold pyRoundR
  rw [Int.floor_intCast]
  simp

theorem round1R_intCast (n : ℤ) : round1R (n : ℝ) = (n : ℝ) := by
  unfold round1R
  have h : (10 : ℝ) * (n : ℝ) = ((10 * n : ℤ) : ℝ) := by push_cast; ring
  rw [h, pyRoundR_intCast]
  push_cast
  ring

theorem pyRoundR_eq_add_one (x : ℝ) (n : ℤ) (h1 : (n : ℝ) + 1 / 2 < x)
    (h2 : x < (n : ℝ) + 1) : pyRoundR x = n + 1 := by
  have hfloor : ⌊x⌋ = n := by
    rw [Int.floor_eq_iff]
    exact ⟨by linarith, h2⟩
  have hnlt : ¬(x - (n : ℝ) < 1 / 2) := by linarith
  have hgt : x - (n : ℝ) > 1 / 2 := by linarith
  unfold pyRoundR
  rw [hfloor]
  show (if x - (n : ℝ) < 1 / 2 then n
    else if x - (n : ℝ) > 1 / 2 then n + 1
    else if Even n then n else n + 1) = n + 1
  rw [if_neg hnlt, if_pos hgt]

/-- The joint-efficiency value at counters `(100, 200, 50)`:
`round(100·50/√(100·200), 1) = 35.4`. -/
theorem round1R_joint_instance :
    round1R (100 * 50 / Real.sqrt 20000) = 35.4 := by
  have hy0 : (0 : ℝ) < Real.sqrt 20000 :=
    Real.sqrt_pos.mpr (by norm_num)
  have hyl : (141.4 : ℝ) < Real.sqrt 20000 :=
    (Real.lt_sqrt (by norm_num)).mpr (by norm_num)
  have hyu : Real.sqrt 20000 < (141.43 : ℝ) :=
    (Real.sqrt_lt' (by norm_num)).mpr (by norm_num)
  have harg : (10 : ℝ) * (100 * 50 / Real.sqrt 20000) =
      50000 / Real.sqrt 20000 := by ring
  have hlow : (353 : ℝ) + 1 / 2 < 50000 / Real.sqrt 20000 := by
    rw [lt_div_iff₀ hy0]
    nlinarith
  have hupp : 50000 / Real.sqrt 20000 < (353 : ℝ) + 1 := by
    rw [div_lt_iff₀ hy0]
    nlinarith
  unfold round1R
  rw [harg, pyRoundR_eq_add_one _ 353 hlow hupp]
  norm_num

theorem keyLE_iff (a b : ℚ × String) :
    keyLE a b = true ↔ a.1 < b.1 ∨ (a.1 = b.1 ∧ a.2 ≤ b.2) := by
  simp [keyLE]

theorem keyLE_total (a b : ℚ × String) : (keyLE a b || keyLE b a) = true := by
  rw [Bool.or_eq_true, keyLE_iff, keyLE_iff]
  rcases lt_trichotomy a.1 b.1 with h | h | h
  · exact Or.inl (Or.inl h)
  · rcases le_total a.2 b.2 with h2 | h2
    · exact Or.inl (Or.inr ⟨h, h2⟩)
    · exact Or.inr (Or.inr ⟨h.symm, h2⟩)
  · exact Or.inr (Or.inl h)

theorem keyLE_trans (a b c : ℚ × String) (h1 : keyLE a b = true)
    (h2 : keyLE b c = true) : keyLE a c = true := by
  rw [keyLE_iff] at h1 h2 ⊢
  rcases h1 with h1 | ⟨h1e, h1s⟩ <;> rcases h2 with h2 | ⟨h2e, h2s⟩
  · exact Or.inl (h1.trans h2)
  · exact Or.inl (lt_of_lt_of_le h1 (le_of_eq h2e))
  · exact Or.inl (lt_of_le_of_lt (le_of_eq h1e) h2)
  · exact Or.inr ⟨h1e.trans h2e, le_trans h1s h2s⟩

theorem terminalKey_snd {p : String × Operation} {q : ℚ × String}
    (h : terminalKey p = some q) : q.2 = p.1 := by
  unfold terminalKey at h
  split at h
  · split at h
    · injection h with h'
      rw [← h']
    · exact Option.noConfusion h
  · exact Option.noConfusion h

theorem terminalKey_isTerminal {p : String × Operation} {q : ℚ × String}
    (h : terminalKey p = some q) : isTerminal p.2 = true := by
  unfold terminalKey at h
  unfold isTerminal
  split at h
  · rename_i t heq
    split at h
    · rename_i hs
      simp [heq, hs]
    · exact Option.noConfusion h
  · exact Option.noConfusion h

theorem terminalPairs_filter_remove (reg : Registry)
    (rem : List (ℚ × String)) :
    terminalPairs (reg.filter fun p => !(rem.any fun q => q.2 == p.1)) =
      (terminalPairs reg).filter fun p => !(rem.any fun q => q.2 == p.2) := by
  unfold terminalPairs
  induction reg with
  | nil => rfl
  | cons pr rest ih =>
      rw [List.filter_cons]
      by_cases hP : (!(rem.any fun q => q.2 == pr.1)) = true
      · rw [if_pos hP]
        cases hk : terminalKey pr with
        | none =>
            rw [List.filterMap_cons_none hk, List.filterMap_cons_none hk, ih]
        | some q =>
            rw [List.filterMap_cons_some hk, List.filterMap_cons_some hk,
              List.filter_cons]
            have h2 : q.2 = pr.1 := terminalKey_snd hk
            rw [if_pos (by rw [h2]; exact hP), ih]
      · rw [if_neg hP]
        cases hk : terminalKey pr with
        | none => rw [List.filterMap_cons_none hk, ih]
        | some q =>
            rw [List.filterMap_cons_some hk, List.filter_cons]
            have h2 : q.2 = pr.1 := terminalKey_snd hk
            rw [if_neg (by rw [h2]; exact hP), ih]

theorem tp_ids_sublist (reg : Registry) :
    ((terminalPairs reg).map Prod.snd).Sublist (reg.map Prod.fst) := by
  unfold terminalPairs
  induction reg with
  | nil => simp
  | cons pr rest ih =>
      cases hk : terminalKey pr with
      | none =>
          rw [List.filterMap_cons_none hk, List.map_cons]
          exact ih.cons pr.1
      | some q =>
          rw [List.filterMap_cons_some hk, List.map_cons, List.map_cons,
            terminalKey_snd hk]
          exact ih.cons₂ pr.1

theorem mem_unique_of_nodup_keys (reg : Registry)
    (hnd : (reg.map Prod.fst).Nodup) {id : String} {op op' : Operation}
    (h1 : (id, op) ∈ reg) (h2 : (id, op') ∈ reg) : op = op' := by
  induction reg with
  | nil => cases h1
  | cons pr rest ih =>
      rw [List.map_cons, List.nodup_cons] at hnd
      rcases List.mem_cons.mp h1 with he1 | ht1 <;>
        rcases List.mem_cons.mp h2 with he2 | ht2
      · exact congrArg Prod.snd (he1.trans he2.symm)
      · exfalso
        have hm : id ∈ rest.map Prod.fst :=
          List.mem_map.mpr ⟨(id, op'), ht2, rfl⟩
        rw [← he1] at hnd
        exact hnd.1 hm
      · exfalso
        have hm : id ∈ rest.map Prod.fst :=
          List.mem_map.mpr ⟨(id, op), ht1, rfl⟩
        rw [← he2] at hnd
        exact hnd.1 hm
      · exact ih hnd.2 ht1 ht2

/-! ## Claim theorems -/

/-- **C3.** `consecutive_failures` returns to 0 on every successful
new-data read; when a failed read brings it to the threshold 5 and either
no recovery ever happened or more than 300 seconds have passed since the
last one, the cursor is forced to the `'$'` sentinel and the counter
returns to 0; a further consecutive failure while the cooldown has not yet
elapsed leaves the cursor alone and only increments the counter. -/
theorem failure_recovery_policy (s : RedisCountsClient) (now : ℚ) :
    (∀ ev d, (getCountsData s ev now).2 = ReadResult.data d →
      (getCountsData s ev now).1.consecutive_failures = 0) ∧
    (s.started = true → s.max_consecutive_failures = 5 →
      s.consecutive_failures + 1 = 5 →
      (s.last_reset_time = none ∨
        ∃ t, s.last_reset_time = some t ∧ 300 < now - t) →
      (getCountsData s .exn now).1.last_timestamp = Cursor.latest ∧
      (getCountsData s .exn now).1.consecutive_failures = 0 ∧
      (getCountsData s .exn now).1.last_reset_time = some now) ∧
    (s.started = true →
      (∃ t, s.last_reset_time = some t ∧ now - t ≤ 300) →
      (getCountsData s .exn now).1.last_timestamp = s.last_timestamp ∧
      (getCountsData s .exn now).1.consecutive_failures =
        s.consecutive_failures + 1 ∧
      (getCountsData s .exn now).1.last_reset_time = s.last_reset_time) := by
  refine ⟨?_, ?_, ?_⟩
  · intro ev d h
    cases hs : s.started with
    | false => simp [getCountsData, hs] at h
    | true =>
        cases ev with
        | noMessages => simp [getCountsData, hs] at h
        | timeout => simp [getCountsData, hs] at h
        | decodeFail => simp [getCountsData, hs] at h
        | exn => simp [getCountsData, hs] at h
        | entry t d' =>
            by_cases hc : Cursor.pos t = s.last_timestamp
            · simp [getCountsData, hs, hc] at h
            · simp [getCountsData, hs, hc]
  · intro hst hmax hcf hcool
    have h5 : s.max_consecutive_failures ≤ s.consecutive_failures + 1 := by
      omega
    rcases hcool with hr | ⟨t, hr, hlt⟩
    · simp [getCountsData, hst, checkRecoveryNeeded, resetStreamPosition,
        h5, hr]
    · simp [getCountsData, hst, checkRecoveryNeeded, resetStreamPosition,
        h5, hr, hlt]
  · rintro hst ⟨t, hr, hle⟩
    have hnlt : ¬300 < now - t := not_lt.mpr hle
    by_cases h5 : s.max_consecutive_failures ≤ s.consecutive_failures + 1 <;>
      simp [getCountsData, hst, checkRecoveryNeeded, resetStreamPosition,
        h5, hr, hnlt]

/-- Witness for C3: a started client with 4 consecutive failures and no
previous recovery hits the threshold on the next failure and resets. -/
theorem failure_recovery_policy_witness :
    (getCountsData
      ({ RedisCountsClient.init with
         started := true
         consecutive_failures := 4 }) ReadEvent.exn 1000).1.last_timestamp =
      Cursor.latest ∧
    (getCountsData
      ({ RedisCountsClient.init with
         started := true
         consecutive_failures := 4 })
      ReadEvent.exn 1000).1.consecutive_failures = 0 := by
  have h := (failure_recovery_policy
    ({ RedisCountsClient.init with
       started := true
       consecutive_failures := 4 }) 1000).2.1 rfl rfl rfl (Or.inl rfl)
  exact ⟨h.1, h.2.1⟩

/-- **C4.** Registry garbage collection is a no-op at up to 50 entries.
It never adds or alters entries (the result is a sublist of the registry),
non-terminal entries always survive unchanged, and when the registry holds
more than 50 entries of which more than 25 are terminal, exactly 25
terminal entries remain afterwards: precisely the first 25 of the terminal
pairs sorted descending by `(completed_at, op_id)` — so every removed
terminal entry's sort key is at most every survivor's key, i.e. the 25 most
recently completed remain. -/
theorem cleanup_policy (reg : Registry) :
    (reg.length ≤ 50 → cleanupOldOperations reg = reg) ∧
    (cleanupOldOperations reg).Sublist reg ∧
    ((reg.map Prod.fst).Nodup →
      ∀ id op, (id, op) ∈ reg → isTerminal op = false →
        (id, op) ∈ cleanupOldOperations reg) ∧
    ((reg.map Prod.fst).Nodup → 50 < reg.length →
      25 < (terminalPairs reg).length →
      (terminalPairs (cleanupOldOperations reg)).length = 25 ∧
      (terminalPairs (cleanupOldOperations reg)).Perm
        (((terminalPairs reg).mergeSort fun a b => keyLE b a).take 25) ∧
      ∀ q ∈ terminalPairs (cleanupOldOperations reg),
        ∀ q' ∈ terminalPairs reg,
          q' ∉ terminalPairs (cleanupOldOperations reg) →
            keyLE q' q = true) := by
  refine ⟨cleanup_noop_of_le reg, ?_, ?_, ?_⟩
  · unfold cleanupOldOperations
    split
    · exact List.Sublist.refl reg
    · split
      · exact List.filter_sublist reg
      · exact List.Sublist.refl reg
  · intro hnd id op hmem hnt
    unfold cleanupOldOperations
    split
    · exact hmem
    · split
      · rw [List.mem_filter]
        refine ⟨hmem, ?_⟩
        simp only [Bool.not_eq_true', List.any_eq_false]
        intro q hq
        intro hbeq
        have heq : q.2 = id := by simpa using hbeq
        have hqs : q ∈ terminalPairs reg :=
          (List.mergeSort_perm (terminalPairs reg) _).mem_iff.mp
            (List.mem_of_mem_drop hq)
        obtain ⟨pr, hpr_mem, hpr_key⟩ := List.mem_filterMap.mp hqs
        have hid : pr.1 = id := (terminalKey_snd hpr_key).symm.trans heq
        have hterm : isTerminal pr.2 = true := terminalKey_isTerminal hpr_key
        have hop : pr.2 = op := by
          refine mem_unique_of_nodup_keys reg hnd ?_ hmem
          show (id, pr.2) ∈ reg
          rw [← hid]
          exact hpr_mem
        rw [hop, hnt] at hterm
        exact Bool.noConfusion hterm
      · exact hmem
  · intro hnd hlen htp
    have hgt : ¬(reg.length ≤ 50) := by omega
    have hcleanup : cleanupOldOperations reg =
        reg.filter fun pr =>
          !((((terminalPairs reg).mergeSort fun a b => keyLE b a).drop
              25).any fun q => q.2 == pr.1) := by
      unfold cleanupOldOperations
      rw [if_neg hgt, if_pos htp]
    have htpclean : terminalPairs (cleanupOldOperations reg) =
        (terminalPairs reg).filter fun pr =>
          !((((terminalPairs reg).mergeSort fun a b => keyLE b a).drop
              25).any fun q => q.2 == pr.2) := by
      rw [hcleanup, terminalPairs_filter_remove]
    set tp := terminalPairs reg with htp_def
    set sorted := tp.mergeSort fun a b => keyLE b a with hs_def
    set Pf : ℚ × String → Bool :=
      fun pr => !((sorted.drop 25).any fun q => q.2 == pr.2) with hPf_def
    have hperm : sorted.Perm tp := List.mergeSort_perm tp _
    have hpairwise : sorted.Pairwise fun a b => keyLE b a = true := by
      rw [hs_def]
      exact List.sorted_mergeSort
        (fun a b c hab hbc => keyLE_trans c b a hbc hab)
        (fun a b => keyLE_total b a) tp
    have hids : (sorted.map Prod.snd).Nodup := by
      have h1 : (tp.map Prod.snd).Nodup :=
        List.Nodup.sublist (tp_ids_sublist reg) hnd
      exact ((hperm.map Prod.snd).nodup_iff).mpr h1
    have hsplit : sorted.take 25 ++ sorted.drop 25 = sorted :=
      List.take_append_drop 25 sorted
    have hdropnil : ((sorted.drop 25).filter Pf) = [] := by
      rw [List.filter_eq_nil_iff]
      intro q' hq'
      have hany : ((sorted.drop 25).any fun q => q.2 == q'.2) = true :=
        List.any_eq_true.mpr ⟨q', hq', by simp⟩
      simp [hPf_def, hany]
    have hkeepfilter : ((sorted.take 25).filter Pf) = sorted.take 25 := by
      rw [List.filter_eq_self]
      intro q' hq'
      rw [hPf_def]
      simp only [Bool.not_eq_true', List.any_eq_false]
      intro q hq
      intro hbeq
      have heq : q.2 = q'.2 := by simpa using hbeq
      have hidsplit := hids
      rw [← hsplit, List.map_append, List.nodup_append] at hidsplit
      exact hidsplit.2.2 (List.mem_map.mpr ⟨q', hq', rfl⟩)
        (List.mem_map.mpr ⟨q, hq, heq⟩)
    have hfiltersorted : sorted.filter Pf = sorted.take 25 := by
      conv_lhs => rw [← hsplit]
      rw [List.filter_append, hdropnil, hkeepfilter, List.append_nil]
    have hpermfinal :
        (terminalPairs (cleanupOldOperations reg)).Perm (sorted.take 25) := by
      rw [htpclean]
      exact (List.Perm.filter Pf hperm).symm.trans (hfiltersorted ▸
        List.Perm.refl (sorted.filter Pf))
    have hlenkeep : (sorted.take 25).length = 25 := by
      rw [List.length_take]
      refine Nat.min_eq_left ?_
      rw [hperm.length_eq]
      exact le_of_lt htp
    refine ⟨?_, hpermfinal, ?_⟩
    · rw [hpermfinal.length_eq, hlenkeep]
    · intro q hq q' hq' hq'notin
      have hqkeep : q ∈ sorted.take 25 := hpermfinal.mem_iff.mp hq
      have hq'sorted : q' ∈ sorted := hperm.mem_iff.mpr hq'
      have hq'app : q' ∈ sorted.take 25 ++ sorted.drop 25 := by
        rw [hsplit]; exact hq'sorted
      have hq'drop : q' ∈ sorted.drop 25 := by
        rcases List.mem_append.mp hq'app with hk | hd
        · exact absurd (hpermfinal.mem_iff.mpr hk) hq'notin
        · exact hd
      have hpw := hpairwise
      rw [← hsplit, List.pairwise_append] at hpw
      exact hpw.2.2 q hqkeep q' hq'drop

/-- Witness for C4: a registry of 51 distinct completed operations is
collected down to exactly 25 terminal entries. -/
theorem cleanup_policy_witness :
    (sampleRegistry.map Prod.fst).Nodup ∧
    50 < sampleRegistry.length ∧
    25 < (terminalPairs sampleRegistry).length ∧
    (terminalPairs (cleanupOldOperations sampleRegistry)).length = 25 :=
  ⟨by decide, by decide, by decide,
    ((cleanup_policy sampleRegistry).2.2.2 (by decide) (by decide)
      (by decide)).1⟩

/-- **C2.** `get_formatted_counts` derives the efficiencies as a pure
function of the three counters extracted from a trimmed entry for the
configured prefix (`As`/`Bs`/`C`, each missing key defaulting to 0):
`alice_efficiency = round(100·C/Bs, 1)` when `Bs > 0` else 0,
`bob_efficiency = round(100·C/As, 1)` when `As > 0` else 0,
`joint_efficiency = round(100·C/√(As·Bs), 1)` when both are positive else 0
(exact-arithmetic semantics of the Python float formulas); counters
`(100, 200, 50)` yield `(25.0, 50.0, 35.4)`, and a zero singles count on
either side yields the corresponding efficiencies 0 with no division. -/
theorem efficiency_derivation :
    (∀ s t now pfx a b c, s.started = true →
      Cursor.pos t ≠ s.last_timestamp → pfx ≠ "isTrim" →
      (getFormattedCounts s
        (.entry t [("isTrim", .vint 1),
          (pfx, .vobj [("As", .vint a), ("Bs", .vint b), ("C", .vint c)])])
        now pfx).2 =
        .ok (some
          { alice_singles := a
            alice_efficiency := (efficiencies a b c).1
            bob_singles := b
            bob_efficiency := (efficiencies a b c).2.1
            coincidences := c
            joint_efficiency := (efficiencies a b c).2.2 })) ∧
    (∀ a b c : ℤ, efficiencies a b c =
      ((if 0 < b then round1R (100 * (c : ℝ) / (b : ℝ)) else 0),
       (if 0 < a then round1R (100 * (c : ℝ) / (a : ℝ)) else 0),
       (if 0 < a ∧ 0 < b then
          round1R (100 * (c : ℝ) / Real.sqrt ((a : ℝ) * (b : ℝ))) else 0))) ∧
    efficiencies 100 200 50 = (25, 50, 35.4) ∧
    (∀ a c : ℤ, (efficiencies a 0 c).1 = 0 ∧ (efficiencies a 0 c).2.2 = 0) ∧
    (∀ b c : ℤ, (efficiencies 0 b c).2.1 = 0 ∧
      (efficiencies 0 b c).2.2 = 0) := by
  have hformula : ∀ a b c : ℤ, efficiencies a b c =
      ((if 0 < b then round1R (100 * (c : ℝ) / (b : ℝ)) else 0),
       (if 0 < a then round1R (100 * (c : ℝ) / (a : ℝ)) else 0),
       (if 0 < a ∧ 0 < b then
          round1R (100 * (c : ℝ) / Real.sqrt ((a : ℝ) * (b : ℝ))) else 0)) :=
    fun _ _ _ => rfl
  refine ⟨?_, hformula, ?_, ?_, ?_⟩
  · intro s t now pfx a b c hst hne hpfx
    have hstep := getCountsData_entry_new s t
      [("isTrim", .vint 1),
        (pfx, .vobj [("As", .vint a), ("Bs", .vint b), ("C", .vint c)])]
      now hst hne
    have h1 : (pfx == "isTrim") = false := beq_eq_false_iff_ne.mpr hpfx
    unfold getFormattedCounts
    rw [hstep]
    simp [List.lookup, dictGet, pyEqZero, pyInt, h1]
  · rw [hformula 100 200 50]
    rw [if_pos (by norm_num : (0:ℤ) < 200),
        if_pos (by norm_num : (0:ℤ) < 100),
        if_pos (⟨by norm_num, by norm_num⟩ : (0:ℤ) < 100 ∧ (0:ℤ) < 200)]
    have e1 : (100 : ℝ) * ((50:ℤ):ℝ) / ((200:ℤ):ℝ) = ((25:ℤ):ℝ) := by
      norm_num
    have e2 : (100 : ℝ) * ((50:ℤ):ℝ) / ((100:ℤ):ℝ) = ((50:ℤ):ℝ) := by
      norm_num
    have e3 : (100 : ℝ) * ((50:ℤ):ℝ) / Real.sqrt (((100:ℤ):ℝ) * ((200:ℤ):ℝ))
        = 100 * 50 / Real.sqrt 20000 := by norm_num
    rw [e1, e2, e3, round1R_intCast, round1R_intCast, round1R_joint_instance]
    norm_num
  · intro a c
    rw [hformula a 0 c]
    constructor
    · simp
    · simp
  · intro b c
    rw [hformula 0 b c]
    constructor
    · simp
    · simp

/-- Witness for C2: the concrete trimmed entry with counters
`(100, 200, 50)` under prefix `VV` produces the snapshot
`(100, 25.0, 200, 50.0, 50, 35.4)`. -/
theorem efficiency_derivation_witness :
    (getFormattedCounts ({ RedisCountsClient.init with started := true })
      (.entry 1 [("isTrim", Val.vint 1),
        ("VV", Val.vobj [("As", Val.vint 100), ("Bs", Val.vint 200),
          ("C", Val.vint 50)])]) 0 "VV").2 =
      FormatResult.ok (some
        { alice_singles := 100
          alice_efficiency := 25
          bob_singles := 200
          bob_efficiency := 50
          coincidences := 50
          joint_efficiency := 35.4 }) := by
  have h1 := efficiency_derivation.1
    ({ RedisCountsClient.init with started := true }) 1 0 "VV" 100 200 50
    rfl (by decide) (by decide)
  have h3 := efficiency_derivation.2.2.1
  rw [h1, h3]

/-- **C5.** The cursor advances to a received entry's position only when
that position differs from the current cursor (an entry at the cursor's own
position is treated as no new data and leaves the cursor alone); and across
any run of successful new-data reads in which the stream only returns
entries strictly after the queried cursor, the cursor values are strictly
increasing. -/
theorem cursor_monotonic (s : RedisCountsClient) (t : ℕ)
    (d : List (String × Val)) (now : ℚ) (evs : List (ReadEvent × ℚ)) :
    (s.started = true → Cursor.pos t = s.last_timestamp →
      getCountsData s (.entry t d) now =
        ({ s with total_reads := s.total_reads + 1,
                  connection_attempts := s.connection_attempts + 1 },
         .nodata)) ∧
    (s.started = true → Cursor.pos t ≠ s.last_timestamp →
      (getCountsData s (.entry t d) now).1.last_timestamp = .pos t ∧
      (getCountsData s (.entry t d) now).2 = .data d) ∧
    (s.started = true → (∃ u, s.last_timestamp = Cursor.pos u) →
      StrictlyNewEntries s evs →
      List.Chain' cursorLt (cursorTrace s evs)) := by
  refine ⟨?_, ?_, ?_⟩
  · intro hst heq
    simp [getCountsData, hst, heq]
  · intro hst hne
    rw [getCountsData_entry_new s t d now hst hne]
    exact ⟨rfl, rfl⟩
  · intro hst hcur hsne
    exact chain'_cursorTrace evs s hst hcur hsne

/-- Witness for C5: two successive reads with strictly increasing stream
ids produce the strictly increasing cursor trace `0, 1, 2`. -/
theorem cursor_monotonic_witness :
    List.Chain' cursorLt (cursorTrace
      ({ RedisCountsClient.init with started := true })
      [(ReadEvent.entry 1 [], 0), (ReadEvent.entry 2 [], 1)]) := by
  apply (cursor_monotonic ({ RedisCountsClient.init with started := true })
    0 [] 0 [(ReadEvent.entry 1 [], 0), (ReadEvent.entry 2 [], 1)]).2.2
    rfl ⟨0, rfl⟩
  refine ⟨⟨1, [], rfl, ?_⟩, ⟨2, [], rfl, ?_⟩, trivial⟩
  · rintro u hu
    injection hu with h
    omega
  · rintro u hu
    have hx : (getCountsData
        ({ RedisCountsClient.init with started := true })
        (ReadEvent.entry 1 []) 0).1.last_timestamp = Cursor.pos 1 := by
      decide
    rw [hx] at hu
    injection hu with h
    omega

/-- **C10.** A new entry that `get_formatted_counts` then filters out
because its `isTrim` field is 0 has already been consumed exactly like a
successful read: the cursor has advanced to its position,
`consecutive_failures` is 0, the success time is stamped, and only
`filtered_reads` additionally increments; a later read returning the same
entry id is treated as no new data, so the filtered entry is never
re-read. -/
theorem filtered_entry_consumed (s : RedisCountsClient) (t : ℕ)
    (d : List (String × Val)) (now now' : ℚ) (pfx : String)
    (hst : s.started = true) (hne : Cursor.pos t ≠ s.last_timestamp)
    (hnonempty : d.isEmpty = false)
    (htrim : pyEqZero (dictGet d "isTrim" (.vint 0)) = true) :
    getFormattedCounts s (.entry t d) now pfx =
      ({ s with total_reads := s.total_reads + 1
                connection_attempts := s.connection_attempts + 1
                last_timestamp := .pos t
                last_successful_read := some now
                consecutive_failures := 0
                filtered_reads := s.filtered_reads + 1 }, .ok none) ∧
    ∀ d', (getCountsData (getFormattedCounts s (.entry t d) now pfx).1
            (.entry t d') now').2 = ReadResult.nodata ∧
          (getCountsData (getFormattedCounts s (.entry t d) now pfx).1
            (.entry t d') now').1.last_timestamp = Cursor.pos t := by
  have hstep := getCountsData_entry_new s t d now hst hne
  have h1 : getFormattedCounts s (.entry t d) now pfx =
      ({ s with total_reads := s.total_reads + 1
                connection_attempts := s.connection_attempts + 1
                last_timestamp := .pos t
                last_successful_read := some now
                consecutive_failures := 0
                filtered_reads := s.filtered_reads + 1 }, .ok none) := by
    unfold getFormattedCounts
    rw [hstep]
    simp [hnonempty, htrim]
  refine ⟨h1, ?_⟩
  intro d'
  rw [h1]
  constructor <;> simp [getCountsData, hst]

/-- Witness for C10: a concrete non-trimmed entry at stream id 7 is
consumed (cursor at 7, failure counter 0, `filtered_reads` = 1) and a
repeat of id 7 yields no new data. -/
theorem filtered_entry_consumed_witness :
    getFormattedCounts ({ RedisCountsClient.init with started := true })
      (.entry 7 [("isTrim", Val.vint 0)]) 3 "VV" =
      ({ RedisCountsClient.init with
         total_reads := 1
         connection_attempts := 1
         last_timestamp := .pos 7
         last_successful_read := some 3
         consecutive_failures := 0
         filtered_reads := 1
         started := true }, .ok none) ∧
    ∀ d', (getCountsData
            (getFormattedCounts
              ({ RedisCountsClient.init with started := true })
              (.entry 7 [("isTrim", Val.vint 0)]) 3 "VV").1
            (.entry 7 d') 4).2 = ReadResult.nodata ∧
          (getCountsData
            (getFormattedCounts
              ({ RedisCountsClient.init with started := true })
              (.entry 7 [("isTrim", Val.vint 0)]) 3 "VV").1
            (.entry 7 d') 4).1.last_timestamp = Cursor.pos 7 :=
  filtered_entry_consumed ({ RedisCountsClient.init with started := true })
    7 [("isTrim", Val.vint 0)] 3 4 "VV" rfl (by decide) rfl rfl

/-- **C6 (amended).** An entry whose `isTrim` field compares numerically
equal to 0 (`0`, `0.0`, `False`, or the field absent) never produces a
snapshot — it is counted in `filtered_reads` and dropped; an entry with
`isTrim = 1` whose configured prefix holds integer counters does produce a
snapshot.  (The claim's stronger "falsy" wording fails: a falsy but
non-numeric `isTrim` such as the empty string is not filtered — see the
counterexample.) -/
theorem isTrim_filter (s : RedisCountsClient) (t : ℕ)
    (d : List (String × Val)) (now : ℚ) (pfx : String)
    (hst : s.started = true) (hne : Cursor.pos t ≠ s.last_timestamp) :
    (pyEqZero (dictGet d "isTrim" (.vint 0)) = true → d.isEmpty = false →
      (getFormattedCounts s (.entry t d) now pfx).2 = .ok none ∧
      (getFormattedCounts s (.entry t d) now pfx).1.filtered_reads =
        s.filtered_reads + 1) ∧
    (dictGet d "isTrim" (.vint 0) = .vint 1 →
      ∀ pd a b c, d.lookup pfx = some (.vobj pd) →
        pyInt (dictGet pd "As" (.vint 0)) = some a →
        pyInt (dictGet pd "Bs" (.vint 0)) = some b →
        pyInt (dictGet pd "C" (.vint 0)) = some c →
        (getFormattedCounts s (.entry t d) now pfx).2 =
          .ok (some
            { alice_singles := a
              alice_efficiency := (efficiencies a b c).1
              bob_singles := b
              bob_efficiency := (efficiencies a b c).2.1
              coincidences := c
              joint_efficiency := (efficiencies a b c).2.2 })) := by
  have hstep := getCountsData_entry_new s t d now hst hne
  constructor
  · intro htrim hnonempty
    constructor
    · unfold getFormattedCounts
      rw [hstep]
      simp [hnonempty, htrim]
    · unfold getFormattedCounts
      rw [hstep]
      simp [hnonempty, htrim]
  · intro htrim pd a b c hpd ha hb hc
    have hnonempty : d.isEmpty = false := by
      cases d with
      | nil => simp [dictGet, List.lookup] at htrim
      | cons p rest => rfl
    have hone : pyEqZero (dictGet d "isTrim" (.vint 0)) = false := by
      rw [htrim]; rfl
    unfold getFormattedCounts
    rw [hstep]
    simp [hnonempty, hone, hpd, ha, hb, hc]

/-- Witness for C6's amended theorem: an entry with `isTrim = 0` yields no
snapshot, and an entry with `isTrim = 1` and counters `(100, 200, 50)`
yields one. -/
theorem isTrim_filter_witness :
    (getFormattedCounts ({ RedisCountsClient.init with started := true })
      (.entry 1 [("isTrim", Val.vint 0)]) 0 "VV").2 = .ok none ∧
    (getFormattedCounts ({ RedisCountsClient.init with started := true })
      (.entry 1 [("isTrim", Val.vint 1),
        ("VV", Val.vobj [("As", Val.vint 100), ("Bs", Val.vint 200),
          ("C", Val.vint 50)])]) 0 "VV").2 =
      .ok (some
        { alice_singles := 100
          alice_efficiency := (efficiencies 100 200 50).1
          bob_singles := 200
          bob_efficiency := (efficiencies 100 200 50).2.1
          coincidences := 50
          joint_efficiency := (efficiencies 100 200 50).2.2 }) := by
  constructor
  · exact ((isTrim_filter ({ RedisCountsClient.init with started := true })
      1 [("isTrim", Val.vint 0)] 0 "VV" rfl (by decide)).1 rfl rfl).1
  · exact (isTrim_filter ({ RedisCountsClient.init with started := true })
      1 [("isTrim", Val.vint 1),
        ("VV", Val.vobj [("As", Val.vint 100), ("Bs", Val.vint 200),
          ("C", Val.vint 50)])] 0 "VV" rfl (by decide)).2 rfl
      [("As", Val.vint 100), ("Bs", Val.vint 200), ("C", Val.vint 50)]
      100 200 50 rfl rfl rfl rfl

/-- **C6 counterexample.** The claim as stated — every entry whose `isTrim`
field is falsy is discarded — is false on the code: the empty string is
falsy in Python, but `"" == 0` is false, so an entry with `isTrim = ""`
passes the filter and produces a snapshot. -/
theorem falsy_isTrim_not_filtered :
    pyFalsy (Val.vstr "") = true ∧
    (getFormattedCounts ({ RedisCountsClient.init with started := true })
      (.entry 1 [("isTrim", Val.vstr ""),
        ("VV", Val.vobj [("As", Val.vint 100), ("Bs", Val.vint 200),
          ("C", Val.vint 50)])]) 0 "VV").2 =
      .ok (some
        { alice_singles := 100
          alice_efficiency := (efficiencies 100 200 50).1
          bob_singles := 200
          bob_efficiency := (efficiencies 100 200 50).2.1
          coincidences := 50
          joint_efficiency := (efficiencies 100 200 50).2.2 }) :=
  ⟨rfl, rfl⟩

/-- **C1.** For every operation id created by `create_operation` with a
fresh id and every behaviour of the worker pool, the sequence of status
values recorded for that id is exactly `pending` (at creation), then
`running`, then exactly one of `completed` or `error`: the status never
changes after the terminal write and never skips from `pending` straight to
a terminal status. -/
theorem operation_lifecycle (st : BackendState)
    (operation_id command : String) (env : ExecEnv) (fileIOFails : Bool)
    (now₀ now : ℚ)
    (hfresh : st.operation_status.lookup operation_id = none) :
    statusTrace st operation_id command env fileIOFails now₀ now =
      ["pending", "running", "completed"] ∨
    statusTrace st operation_id command env fileIOFails now₀ now =
      ["pending", "running", "error"] := by
  have hcreate :
      (createOperation st.operation_status operation_id command
        now₀).lookup operation_id = some
        { operation_id := operation_id, status := "pending",
          command := command, result := none, error := none,
          started_at := now₀, completed_at := none } :=
    lookup_append_single _ _ _ hfresh
  have h := executeZmqOperation_trace
    { st with operation_status :=
        createOperation st.operation_status operation_id command now₀ }
    operation_id env fileIOFails now _ hcreate
  unfold statusTrace
  rcases h with h | h
  · left; rw [h]
  · right; rw [h]

/-- Witness for C1: a concrete successful dispatch runs
`pending → running → completed`. -/
theorem operation_lifecycle_witness :
    ([] : Registry).lookup "op-1" = none ∧
    (statusTrace ⟨[], ⟨[], 200, []⟩⟩ "op-1" "Home All"
        (.result ⟨true, some "homed", none, none⟩) false 0 1 =
      ["pending", "running", "completed"] ∨
    statusTrace ⟨[], ⟨[], 200, []⟩⟩ "op-1" "Home All"
        (.result ⟨true, some "homed", none, none⟩) false 0 1 =
      ["pending", "running", "error"]) :=
  ⟨rfl, operation_lifecycle ⟨[], ⟨[], 200, []⟩⟩ "op-1" "Home All"
    (.result ⟨true, some "homed", none, none⟩) false 0 1 rfl⟩

/-- **C8.** The history append at the end of an operation is best-effort:
whether or not the history sink's file write fails (the only fallible step
of `add_command`; `_append_to_file` swallows the exception), the operation
registry ends in the same state, the status writes for the operation are the
same (no retry, no change to the decided terminal status/result/error), the
in-memory history is the same, and the background task returns normally. -/
theorem history_append_best_effort (st : BackendState)
    (operation_id : String) (env : ExecEnv) (now : ℚ) :
    (executeZmqOperation st operation_id env true now).1.operation_status =
      (executeZmqOperation st operation_id env false now).1.operation_status ∧
    (executeZmqOperation st operation_id env true now).1.history.command_history =
      (executeZmqOperation st operation_id env false now).1.history.command_history ∧
    (executeZmqOperation st operation_id env true now).2 =
      (executeZmqOperation st operation_id env false now).2 := by
  unfold executeZmqOperation
  cases hl : st.operation_status.lookup operation_id with
  | none => exact ⟨rfl, rfl, rfl⟩
  | some op =>
      cases env with
      | result r =>
          cases hr : r.success <;> simp [hr, addCommand, appendToFile]
      | raisesZmq msg => simp [addCommand, appendToFile]
      | raisesOther msg => simp [addCommand, appendToFile]

/-- **C9 (amended).** An unexpected (non-`ZMQClientError`) exception in the
background task ends the operation in status `error`, but the error field
stored for clients is `"Unexpected error: " ++ str(e)` — the fixed generic
prefix followed by the exception's own message (only the traceback is
confined to the log). -/
theorem unexpected_error_field (st : BackendState)
    (operation_id msg : String) (fileIOFails : Bool) (now : ℚ)
    (op : Operation) (hlen : st.operation_status.length ≤ 50)
    (hop : st.operation_status.lookup operation_id = some op) :
    ∃ opf,
      (executeZmqOperation st operation_id (.raisesOther msg) fileIOFails
        now).1.operation_status.lookup operation_id = some opf ∧
      opf.status = "error" ∧
      opf.error = some ("Unexpected error: " ++ msg) ∧
      opf.completed_at = some now := by
  unfold executeZmqOperation
  rw [hop]
  have h₁ := lookup_updateOperationStatus st.operation_status operation_id
    "running" none none now op hop
  have h₂ := lookup_updateOperationStatus _ operation_id "error" none
    (some ("Unexpected error: " ++ msg)) now _ h₁
  have hcl : cleanupOldOperations
      (updateOperationStatus
        (updateOperationStatus st.operation_status operation_id "running"
          none none now)
        operation_id "error" none (some ("Unexpected error: " ++ msg)) now) =
      updateOperationStatus
        (updateOperationStatus st.operation_status operation_id "running"
          none none now)
        operation_id "error" none (some ("Unexpected error: " ++ msg)) now := by
    apply cleanup_noop_of_le
    rw [length_updateOperationStatus, length_updateOperationStatus]
    exact hlen
  refine ⟨applyStatusUpdate "error" none (some ("Unexpected error: " ++ msg))
    now (applyStatusUpdate "running" none none now op), ?_, rfl, ?_, ?_⟩
  · show (cleanupOldOperations
        (updateOperationStatus
          (updateOperationStatus st.operation_status operation_id "running"
            none none now)
          operation_id "error" none (some ("Unexpected error: " ++ msg))
          now)).lookup operation_id = _
    rw [hcl]
    exact h₂
  · rfl
  · simp [applyStatusUpdate]

/-- Witness for C9's amended theorem at a concrete input. -/
theorem unexpected_error_field_witness :
    ∃ opf,
      (executeZmqOperation
          ⟨createOperation [] "op-9" "Set Bell Angles" 0, ⟨[], 200, []⟩⟩
          "op-9" (.raisesOther "KeyError: angles") false 1).1.operation_status.lookup
        "op-9" = some opf ∧
      opf.status = "error" ∧
      opf.error = some ("Unexpected error: " ++ "KeyError: angles") ∧
      opf.completed_at = some 1 :=
  unexpected_error_field
    ⟨createOperation [] "op-9" "Set Bell Angles" 0, ⟨[], 200, []⟩⟩
    "op-9" "KeyError: angles" false 1 _ (by decide) rfl

/-- **C9 counterexample.** The claim as stated — the client-visible error
field holds a generic message that does not contain the exception's
detail — is false: running an operation whose unexpected exception carries
the message `"ValueError: secret internal detail"` stores exactly
`"Unexpected error: ValueError: secret internal detail"` in the operation's
`error` field, i.e. the exception's full message is returned to clients. -/
theorem unexpected_error_leaks_detail :
    (executeZmqOperation
        ⟨createOperation [] "op-9c" "Calibrate Alice" 0, ⟨[], 200, []⟩⟩
        "op-9c" (.raisesOther "ValueError: secret internal detail") false
        1).1.operation_status.lookup "op-9c" = some
      { operation_id := "op-9c", status := "error",
        command := "Calibrate Alice", result := none,
        error := some ("Unexpected error: " ++
          "ValueError: secret internal detail"),
        started_at := 0, completed_at := some 1 } := by
  decide

/-- **C7.** For every command name and every behaviour of the fresh client
and the resolved attribute, `execute_zmq_command` returns a structured
result dictionary (success carries a result; failure carries an error
message and an error type) and never propagates an exception.  An unknown
command name — one `getattr` cannot resolve on the client (not a method of
the class, not the instance attribute `client`, not inherited from
`object`), so `getattr` raises `AttributeError` — yields the distinguished
method-not-found result with `error_type` `AttributeError` rather than a
crash; a resolvable but non-callable attribute such as `client` instead
yields an ordinary structured failure with `error_type` `TypeError`, also
not a crash. -/
theorem executeZmqCommand_structured (command_name : String)
    (env : WorkerEnv) :
    (((executeZmqCommand command_name env).success = true ∧
      (executeZmqCommand command_name env).result.isSome = true ∧
      (executeZmqCommand command_name env).error = none) ∨
     ((executeZmqCommand command_name env).success = false ∧
      (executeZmqCommand command_name env).error.isSome = true ∧
      (executeZmqCommand command_name env).error_type.isSome = true)) ∧
    (∀ msg, executeZmqCommand command_name (.attrMissing msg) =
        workerExcept command_name "AttributeError" msg ∧
      (executeZmqCommand command_name (.attrMissing msg)).success = false ∧
      (executeZmqCommand command_name (.attrMissing msg)).error =
        some ("Method " ++ command_name ++ " not found on ZMQ client: "
          ++ msg) ∧
      (executeZmqCommand command_name (.attrMissing msg)).error_type =
        some "AttributeError") ∧
    (∀ msg,
      (executeZmqCommand command_name (.nonCallable msg)).success = false ∧
      (executeZmqCommand command_name (.nonCallable msg)).error_type =
        some "TypeError") := by
  refine ⟨?_, ?_, ?_⟩
  · cases env with
    | ctorRaises ty msg =>
        by_cases h : ty = "AttributeError" <;>
          simp [executeZmqCommand, workerExcept, h]
    | attrMissing msg => simp [executeZmqCommand, workerExcept]
    | nonCallable msg => simp [executeZmqCommand, workerExcept]
    | callRaises ty msg =>
        by_cases h : ty = "AttributeError" <;>
          simp [executeZmqCommand, workerExcept, h]
    | callOk r => simp [executeZmqCommand]
  · intro msg
    refine ⟨rfl, ?_, ?_, ?_⟩ <;> simp [executeZmqCommand, workerExcept]
  · intro msg
    constructor <;> simp [executeZmqCommand, workerExcept]

/-- Witness for C7: the unknown command name `"does_not_exist"` (which
`getattr` fails to resolve) produces the distinguished `AttributeError`
result, while the resolvable non-callable name `"client"` produces a
structured `TypeError` failure — neither crashes. -/
theorem executeZmqCommand_structured_witness :
    (executeZmqCommand "does_not_exist"
      (.attrMissing
        "PolarizationZMQClient object has no attribute does_not_exist")).success
      = false ∧
    (executeZmqCommand "does_not_exist"
      (.attrMissing
        "PolarizationZMQClient object has no attribute does_not_exist")).error_type
      = some "AttributeError" ∧
    (executeZmqCommand "client"
      (.nonCallable "Client object is not callable")).success = false ∧
    (executeZmqCommand "client"
      (.nonCallable "Client object is not callable")).error_type =
      some "TypeError" := by
  have h1 := (executeZmqCommand_structured "does_not_exist"
    (.attrMissing
      "PolarizationZMQClient object has no attribute does_not_exist")).2.1
    "PolarizationZMQClient object has no attribute does_not_exist"
  have h2 := (executeZmqCommand_structured "client"
    (.nonCallable "Client object is not callable")).2.2
    "Client object is not callable"
  exact ⟨h1.2.1, h1.2.2.2, h2.1, h2.2⟩

end Polarization
